import Mathlib

/-!
Shallow embedding of the Ecore-to-Protobuf converter
(`src/ecore_to_proto.py`) and proofs about its parsing heuristics,
cross-reference resolver, annotation collector and proto generator.

Python strings are modelled as `String`, Python `None`-able strings as
`Option String` (`none` = `None`, `some ""` = the empty string, which is
distinct from `None` but equally falsy), dicts as association lists with
first-match lookup and in-place update, and sets as duplicate-free lists.
-/

-- ── Python-style helpers ─────────────────────────────────────────────────────

/-- Python truthiness of an `Optional[str]`: `None` and `""` are falsy. -/
def pyTruthy : Option String → Bool
  | some s => s ≠ ""
  | none => false

/-- Python `a or default` on an `Optional[str]`: keeps `a` when truthy. -/
def pyOrS : Option String → String → String
  | some s, d => if s = "" then d else s
  | none, d => d

/-- The string stored in an `Option String`, `""` for `none`. -/
def hintVal : Option String → String
  | some s => s
  | none => ""

/-- Splitting a character list on each left-to-right non-overlapping
occurrence of a non-empty separator.  The fuel argument (instantiated
with the list's length, an upper bound on the number of steps) keeps the
recursion structural so that terms reduce inside the kernel. -/
def splitOnFuel (sep : List Char) : Nat → List Char → List Char → List (List Char)
  | 0, s, acc => [acc.reverse ++ s]
  | fuel + 1, s, acc =>
    match s with
    | [] => [acc.reverse]
    | c :: rest =>
      if sep ≠ [] ∧ sep.isPrefixOf (c :: rest) then
        acc.reverse :: splitOnFuel sep fuel ((c :: rest).drop sep.length) []
      else splitOnFuel sep fuel rest (c :: acc)

/-- Python `s.split(sep)` for a non-empty separator (also the semantics
of `str.partition`-style scans); `[s]` when the separator is empty. -/
def pySplitOn (s sep : String) : List String :=
  if sep = "" then [s]
  else (splitOnFuel sep.toList s.toList.length s.toList []).map String.mk

/-- Python `pat in s` substring test. -/
def containsSub (s pat : String) : Bool := (pySplitOn s pat).length > 1

/-- Python `s.rsplit(pat, 1)`: split at the last occurrence of `pat`
(callers guard on `containsSub s pat`). -/
def rsplitOnce (s pat : String) : String × String :=
  match pySplitOn s pat with
  | [] => (s, "")
  | [x] => (x, "")
  | parts => (String.intercalate pat parts.dropLast, parts.getLastD "")

/-- Split a character list at whitespace characters (keeping empties). -/
def splitWsL : List Char → List Char → List (List Char)
  | [], acc => [acc.reverse]
  | c :: rest, acc =>
    if c.isWhitespace then acc.reverse :: splitWsL rest []
    else splitWsL rest (c :: acc)

/-- Python `s.split()` — split on whitespace runs, dropping empty parts. -/
def pySplitWs (s : String) : List String :=
  ((splitWsL s.toList []).map String.mk).filter (fun t => t ≠ "")

/-- Python `s.strip()`: trim whitespace from both ends. -/
def pyStrip (s : String) : String :=
  String.mk ((s.toList.dropWhile Char.isWhitespace).reverse.dropWhile Char.isWhitespace).reverse

/-- Python `s.lower()` (ASCII). -/
def pyLowerStr (s : String) : String := String.mk (s.toList.map Char.toLower)

/-- Python `s.replace(pat, rep)` for a non-empty `pat`. -/
def pyReplace (s pat rep : String) : String :=
  String.intercalate rep (pySplitOn s pat)

/-- ASCII lower-case letter test (regex class `[a-z]`). -/
def isLowerA (c : Char) : Bool := decide ('a' ≤ c) && decide (c ≤ 'z')

/-- ASCII upper-case letter test (regex class `[A-Z]`). -/
def isUpperA (c : Char) : Bool := decide ('A' ≤ c) && decide (c ≤ 'Z')

/-- ASCII digit test (regex class `[0-9]`). -/
def isDigitA (c : Char) : Bool := decide ('0' ≤ c) && decide (c ≤ '9')

/-- `re.sub(r'([a-z0-9])([A-Z])', r'\1_\2', s)`: insert `_` between a
lower-case letter or digit and an upper-case letter. -/
def sub1 : List Char → List Char
  | a :: b :: rest =>
      if (isLowerA a || isDigitA a) && isUpperA b then a :: '_' :: sub1 (b :: rest)
      else a :: sub1 (b :: rest)
  | l => l

/-- `re.sub(r'([A-Z]+)([A-Z][a-z])', r'\1_\2', s)`: insert `_` between an
upper-case run and an upper-case letter followed by a lower-case one.  The
regex inserts exactly before the final `[A-Z][a-z]` of each match, which is
the local triple condition below. -/
def sub2 : List Char → List Char
  | a :: b :: c :: rest =>
      if isUpperA a && isUpperA b && isLowerA c then a :: '_' :: sub2 (b :: c :: rest)
      else a :: sub2 (b :: c :: rest)
  | l => l

/-- `re.sub(r'_+', '_', s)`: collapse runs of underscores. -/
def collapseU : List Char → List Char
  | [] => []
  | [c] => [c]
  | a :: b :: rest =>
      if a = '_' && b = '_' then collapseU (b :: rest) else a :: collapseU (b :: rest)

/-- Python `s.strip('_')`. -/
def stripU (cs : List Char) : List Char :=
  ((cs.dropWhile (fun c => c = '_')).reverse.dropWhile (fun c => c = '_')).reverse

/-- Python `s.upper()` (ASCII). -/
def pyUpperStr (s : String) : String := String.mk (s.toList.map Char.toUpper)

-- ── Association-list dictionaries (Python `dict`) ───────────────────────────

/-- First-match lookup, Python `d.get(k)`. -/
def lookupStr : List (String × String) → String → Option String
  | [], _ => none
  | p :: rest, k => if p.1 = k then some p.2 else lookupStr rest k

/-- Python `d[k] = v`: overwrite in place, append when absent. -/
def dictSet : List (String × String) → String → String → List (String × String)
  | [], k, v => [(k, v)]
  | p :: rest, k, v => if p.1 = k then (k, v) :: rest else p :: dictSet rest k v

/-- First-match lookup in a list-valued dict. -/
def lookupList : List (String × List String) → String → Option (List String)
  | [], _ => none
  | p :: rest, k => if p.1 = k then some p.2 else lookupList rest k

/-- Python `d.get(k, [])` for list-valued dicts. -/
def lookupListD (m : List (String × List String)) (k : String) : List String :=
  (lookupList m k).getD []

/-- Python `d.setdefault(k, []); mutate d[k]`: update the first entry for
`k` in place, append `(k, f [])` when absent. -/
def dictUpdList : List (String × List String) → String → (List String → List String) → List (String × List String)
  | [], k, f => [(k, f [])]
  | p :: rest, k, f => if p.1 = k then (p.1, f p.2) :: rest else p :: dictUpdList rest k f

/-- Python `set.add` on a set modelled as a duplicate-free list. -/
def dedupAdd (acc : List String) (s : String) : List String :=
  if s ∈ acc then acc else acc ++ [s]

/-- Fold a list into a duplicate-free list, keeping first occurrences. -/
def dedupFold (l : List String) : List String := l.foldl dedupAdd []

/-- `pathlib.Path(p).stem`: final path component without its extension
(the suffix is the part after the last dot, unless that dot is the first
or last character of the component). -/
def pathStem (p : String) : String :=
  let base := (pySplitOn p "/").getLastD p
  let cs := base.toList
  match (cs.reverse.findIdx? (fun c => c = '.')).map (fun j => cs.length - 1 - j) with
  | some i => if 0 < i ∧ i < cs.length - 1 then String.mk (cs.take i) else base
  | none => base

-- ── Data model (the `@dataclass` definitions) ────────────────────────────────

/-- `EAnnotation`: an annotation block with a source URI and detail pairs. -/
structure EAnn where
  source : String
  details : List (String × String) := []
deriving DecidableEq

structure EEnumLiteral where
  name : String
  value : Int := 0
deriving DecidableEq

structure EEnum where
  name : String
  literals : List EEnumLiteral := []
  package_name : String := ""
  annotations : List EAnn := []
deriving DecidableEq

structure EAttribute where
  name : String
  e_type : String
  lower_bound : Int := 0
  upper_bound : Int := 1
  default_value : Option String := none
  source_hint : Option String := none
  annotations : List EAnn := []
deriving DecidableEq

structure EReference where
  name : String
  e_type : String
  containment : Bool := false
  lower_bound : Int := 0
  upper_bound : Int := 1
  opposite : Option String := none
  resolved_package : Option String := none
  source_hint : Option String := none
  annotations : List EAnn := []
deriving DecidableEq

structure EClass where
  name : String
  abstract : Bool := false
  interface : Bool := false
  super_types : List String := []
  attributes : List EAttribute := []
  references : List EReference := []
  package_name : String := ""
  resolved_supers : List (String × String) := []
  annotations : List EAnn := []
deriving DecidableEq

structure EDataType where
  name : String
  instance_class_name : Option String := none
deriving DecidableEq

/-- `EPackage` is recursive through `sub_packages`, so it is an inductive
with a single constructor; field accessors follow.  Field order matches the
dataclass: name, ns_uri, ns_prefix, classes, enums, data_types,
sub_packages, source_file, annotations. -/
inductive EPackage where
  | mk (name ns_uri ns_pfx : String)
       (classes : List EClass) (enums : List EEnum) (data_types : List EDataType)
       (sub_packages : List EPackage) (source_file : String) (annotations : List EAnn)

def EPackage.name : EPackage → String
  | .mk n _ _ _ _ _ _ _ _ => n

def EPackage.classes : EPackage → List EClass
  | .mk _ _ _ cs _ _ _ _ _ => cs

def EPackage.enums : EPackage → List EEnum
  | .mk _ _ _ _ es _ _ _ _ => es

def EPackage.data_types : EPackage → List EDataType
  | .mk _ _ _ _ _ ds _ _ _ => ds

def EPackage.sub_packages : EPackage → List EPackage
  | .mk _ _ _ _ _ _ subs _ _ => subs

def EPackage.source_file : EPackage → String
  | .mk _ _ _ _ _ _ _ sf _ => sf

def EPackage.anns : EPackage → List EAnn
  | .mk _ _ _ _ _ _ _ _ a => a

-- ── Parser (`EcoreParser`) ───────────────────────────────────────────────────

/-- A raw XML element as seen by the parser: tag, attribute dict and child
elements (text content is never consulted by the converter). -/
inductive XElem where
  | mk (tag : String) (attrs : List (String × String)) (children : List XElem)

def XElem.tag : XElem → String
  | .mk t _ _ => t

def XElem.attrs : XElem → List (String × String)
  | .mk _ a _ => a

def XElem.children : XElem → List XElem
  | .mk _ _ cs => cs

/-- Python `elem.get(k)`. -/
def elemGet (e : XElem) (k : String) : Option String := lookupStr e.attrs k

/-- Python `elem.get(k, d)`. -/
def elemGetD (e : XElem) (k : String) (d : String) : String := (elemGet e k).getD d

def XSI_NS : String := "http://www.w3.org/2001/XMLSchema-instance"

/-- The attribute key ElementTree uses for `xsi:type`. -/
def xsiTypeKey : String := "\x7b" ++ XSI_NS ++ "\x7dtype"

/-- `xsi_type = child.get(f"...type", "")` in `_parse_package`. -/
def xsiType (e : XElem) : String := elemGetD e xsiTypeKey ""

/-- `EcoreParser._strip_ns`: drop everything up to the first `}`. -/
def strip_ns (tag : String) : String :=
  if containsSub tag "\x7d" then
    match pySplitOn tag "\x7d" with
    | [] => tag
    | [x] => x
    | _ :: rest => String.intercalate "\x7d" rest
  else tag

/-- `EcoreParser._has_literals`: some child whose namespace-stripped tag
contains "literal" (case-insensitively) or equals "eLiterals". -/
def has_literals (e : XElem) : Bool :=
  e.children.any (fun c =>
    let t := strip_ns c.tag
    containsSub (pyLowerStr t) "literal" || t == "eLiterals")

/-- `EcoreParser._has_structural_features`. -/
def has_structural_features (e : XElem) : Bool :=
  e.children.any (fun c =>
    let t := strip_ns c.tag
    t == "eStructuralFeatures" || containsSub (pyLowerStr t) "feature")

/-- `EcoreParser._looks_like_class`. -/
def looks_like_class (e : XElem) : Bool :=
  has_structural_features e || (elemGet e "eSuperTypes").isSome || (elemGet e "abstract").isSome

/-- `EcoreParser._looks_like_enum`. -/
def looks_like_enum (e : XElem) : Bool := has_literals e

/-- `EcoreParser._looks_like_datatype`. -/
def looks_like_datatype (e : XElem) : Bool :=
  (elemGet e "instanceClassName").isSome || (elemGet e "instanceTypeName").isSome

/-- The classifier kinds an `eClassifiers` child can be parsed as. -/
inductive CKind where
  | cls
  | enm
  | dt
deriving DecidableEq

/-- Python `elem.get("instanceClassName") or elem.get("instanceTypeName")`
(`or` keeps the left operand when truthy). -/
def pyOrO : Option String → Option String → Option String
  | a, b => if pyTruthy a then a else b

/-- The classifier-dispatch logic of `EcoreParser._parse_package`
(the chain of `if "EClass" in xsi_type or xsi_type == "" and
self._looks_like_class(child): ... elif ... else: ...`): which of
class / enum / data type an `eClassifiers` child element is parsed as. -/
def classify (e : XElem) : CKind :=
  let x := xsiType e
  if containsSub x "EClass" || (x == "" && looks_like_class e) then .cls
  else if containsSub x "EEnum" || looks_like_enum e then .enm
  else if containsSub x "EDataType" || looks_like_datatype e then .dt
  else
    if has_literals e then .enm
    else if has_structural_features e then .cls
    else if pyTruthy (pyOrO (elemGet e "instanceClassName") (elemGet e "instanceTypeName")) then .dt
    else .cls

-- ── Ecore type table and type-reference extraction ──────────────────────────

/-- `ECORE_TO_PROTO_TYPE`: the Ecore/Java builtin-to-proto scalar table. -/
def ECORE_TO_PROTO_TYPE : List (String × String) :=
  [("EString", "string"), ("EInt", "int32"), ("EInteger", "int32"),
   ("ELong", "int64"), ("EFloat", "float"), ("EDouble", "double"),
   ("EBoolean", "bool"), ("EByte", "int32"), ("EShort", "int32"),
   ("EChar", "string"), ("EDate", "google.protobuf.Timestamp"),
   ("EBigInteger", "int64"), ("EBigDecimal", "string"),
   ("EByteArray", "bytes"), ("EResource", "string"),
   ("EJavaObject", "google.protobuf.Any"), ("EJavaClass", "string"),
   ("EFeatureMapEntry", "google.protobuf.Any"), ("EMap", "google.protobuf.Struct"),
   ("EEList", "google.protobuf.ListValue"), ("ETreeIterator", "string"),
   ("EEnumerator", "int32"),
   ("java.lang.String", "string"), ("java.lang.Integer", "int32"),
   ("java.lang.Long", "int64"), ("java.lang.Float", "float"),
   ("java.lang.Double", "double"), ("java.lang.Boolean", "bool"),
   ("java.lang.Byte", "int32"), ("java.lang.Short", "int32"),
   ("java.lang.Character", "string"), ("java.util.Date", "google.protobuf.Timestamp"),
   ("java.math.BigInteger", "int64"), ("java.math.BigDecimal", "string"),
   ("int", "int32"), ("long", "int64"), ("float", "float"),
   ("double", "double"), ("boolean", "bool"), ("byte", "int32"),
   ("short", "int32"), ("char", "string")]

/-- `EcoreParser._extract_type_info`: split an `eType` token into
`(typeName, sourceHint)`; an absent or empty token defaults to
`("EString", None)`. -/
def extract_type_info (etype_raw : String) : String × Option String :=
  if etype_raw = "" then ("EString", none)
  else if containsSub etype_raw "#//" then
    let lr := rsplitOnce etype_raw "#//"
    let type_name := pyStrip ((pySplitOn lr.2 "/").getLastD lr.2)
    let left := pyStrip lr.1
    if left ≠ "" ∧ ¬ containsSub left "eclipse.org/emf" ∧ ¬ containsSub left "www.w3.org" then
      let left2 := if containsSub left " " then (pySplitWs left).getLastD left else left
      let basename := (pySplitOn left2 "/").getLastD left2
      let sh :=
        if containsSub basename "." then
          String.intercalate "." ((pySplitOn basename ".").dropLast)
        else basename
      (type_name, some (if sh ≠ "" then pyStrip sh else sh))
    else (type_name, none)
  else
    ((pyStrip ((pySplitWs etype_raw).getLastD "")), none)

/-- `EcoreParser._extract_type_name`. -/
def extract_type_name (etype_raw : String) : String := (extract_type_info etype_raw).1

/-- `EcoreParser._is_likely_reference`: a type token not naming a builtin. -/
def is_likely_reference (etype : String) : Bool :=
  (lookupStr ECORE_TO_PROTO_TYPE (extract_type_name etype)).isNone

/-- Attribute vs reference for one `eStructuralFeatures` child of
`EcoreParser._parse_class` (explicit `xsi:type` first, then the
`eType`-shape guess). -/
inductive FeatKind where
  | ref
  | attr
deriving DecidableEq

def classify_feature (e : XElem) : FeatKind :=
  let x := xsiType e
  if containsSub x "EReference" then .ref
  else if containsSub x "EAttribute" then .attr
  else
    let etype := elemGetD e "eType" ""
    if etype ≠ "" ∧ (containsSub etype "#//" ∨ containsSub (pyLowerStr etype) "ecore:") then
      if is_likely_reference etype then .ref else .attr
    else .attr

/-- `EcoreParser._parse_annotations`: collect the `eAnnotations` children
with their non-empty-keyed detail pairs, dropping blocks with no details. -/
def parse_anns (e : XElem) : List EAnn :=
  e.children.foldl (fun acc c =>
    if strip_ns c.tag = "eAnnotations" then
      let details := c.children.foldl (fun d dc =>
        if strip_ns dc.tag = "details" then
          let key := elemGetD dc "key" ""
          let value := elemGetD dc "value" ""
          if key ≠ "" then dictSet d key value else d
        else d) []
      if details ≠ [] then acc ++ [{ source := elemGetD c "source" "", details := details }] else acc
    else acc) []

/-- Python `int(s)` restricted to the well-formed inputs the converter
meets (on other inputs `int` raises, which no claim exercises). -/
def pyIntD (s : String) : Int := ((pyStrip s).toInt?).getD 0

/-- `EcoreParser._parse_attribute`. -/
def parse_attribute (e : XElem) : EAttribute :=
  let ti := extract_type_info (elemGetD e "eType" "")
  { name := elemGetD e "name" "unknown",
    e_type := ti.1,
    lower_bound := pyIntD (elemGetD e "lowerBound" "0"),
    upper_bound := pyIntD (elemGetD e "upperBound" "1"),
    default_value := elemGet e "defaultValueLiteral",
    source_hint := ti.2,
    annotations := parse_anns e }

/-- `EcoreParser._parse_reference`. -/
def parse_reference (e : XElem) : EReference :=
  let ti := extract_type_info (elemGetD e "eType" "")
  { name := elemGetD e "name" "unknown",
    e_type := ti.1,
    containment := pyLowerStr (elemGetD e "containment" "false") == "true",
    lower_bound := pyIntD (elemGetD e "lowerBound" "0"),
    upper_bound := pyIntD (elemGetD e "upperBound" "1"),
    opposite := elemGet e "eOpposite",
    resolved_package := none,
    source_hint := ti.2,
    annotations := parse_anns e }

-- ── Cross-reference resolver (`ReferenceResolver`) ──────────────────────────

/-- The resolver's four indices (`class_index`, `enum_index`,
`datatype_index`, `file_stem_to_package`). -/
structure Resolver where
  class_index : List (String × List String) := []
  enum_index : List (String × List String) := []
  datatype_index : List (String × String) := []
  stems : List (String × String) := []

-- `ReferenceResolver._index_package` (recursing into sub-packages) and
-- `_build_indices` over a package list.
mutual
def index_package (R : Resolver) : EPackage → Resolver
  | .mk pname _ _ classes enums dts subs sf _ =>
    let R := if sf ≠ "" then { R with stems := dictSet R.stems (pathStem sf) pname } else R
    let R := { R with stems := dictSet R.stems pname pname }
    let R := classes.foldl (fun R c =>
      { R with class_index := dictUpdList R.class_index c.name (fun l =>
          if pname ∈ l then l else l ++ [pname]) }) R
    let R := enums.foldl (fun R en =>
      { R with enum_index := dictUpdList R.enum_index en.name (fun l =>
          if pname ∈ l then l else l ++ [pname]) }) R
    let R := dts.foldl (fun R dt =>
      if pyTruthy dt.instance_class_name then
        { R with datatype_index := dictSet R.datatype_index dt.name (hintVal dt.instance_class_name) }
      else R) R
    index_package_list R subs
def index_package_list (R : Resolver) : List EPackage → Resolver
  | [] => R
  | p :: ps => index_package_list (index_package R p) ps
end

/-- `ReferenceResolver.__init__` / `_build_indices`. -/
def buildIndices (pkgs : List EPackage) : Resolver :=
  index_package_list {} pkgs

/-- `ReferenceResolver.resolve_type`: disambiguate a type name to a
package name.  Python's early `return`s inside `if source_hint:` are
modelled by the intermediate `hintResult`. -/
def resolve_type (stems : List (String × String)) (index : List (String × List String))
    (type_name : String) (source_hint : Option String) (current_pkg_name : String) :
    Option String :=
  match lookupListD index type_name with
  | [] => none
  | [p] => some p
  | p :: q :: rest =>
    let cands := p :: q :: rest
    let hintResult : Option String :=
      if pyTruthy source_hint then
        let h := hintVal source_hint
        match lookupStr stems h with
        | some hp =>
          if hp ≠ "" ∧ hp ∈ cands then some hp
          else if h ∈ cands then some h else none
        | none => if h ∈ cands then some h else none
      else none
    match hintResult with
    | some r => some r
    | none =>
      if current_pkg_name ∈ cands then some current_pkg_name else some p

/-- The disambiguation priority written as the specification describes it,
amended with the two Python-truthiness provisos the code applies: the
source hint is consulted only when non-empty, and rule 1 additionally
requires the stem-mapped package name to be non-empty.  `resolve_type`
is proved equal to this function. -/
def resolve_type_priority (stems : List (String × String)) (index : List (String × List String))
    (type_name : String) (source_hint : Option String) (current_pkg_name : String) :
    Option String :=
  match lookupListD index type_name with
  | [] => none
  | [p] => some p
  | p :: q :: rest =>
    let cands := p :: q :: rest
    let h := hintVal source_hint
    let rule1 : Option String :=
      match lookupStr stems h with
      | some hp => if hp ≠ "" ∧ hp ∈ cands then some hp else none
      | none => none
    if h ≠ "" ∧ rule1.isSome then rule1
    else if h ≠ "" ∧ h ∈ cands then some h
    else if current_pkg_name ∈ cands then some current_pkg_name
    else some p

/-- `ReferenceResolver._extract_type_info_from_uri` (the resolver's own
variant used for `eSuperTypes` tokens: no framework-namespace exclusion). -/
def extract_type_info_from_uri (uri : String) : String × Option String :=
  if containsSub uri "#//" then
    let lr := rsplitOnce uri "#//"
    let type_name := pyStrip ((pySplitOn lr.2 "/").getLastD lr.2)
    let left := pyStrip lr.1
    if left ≠ "" then
      let basename := (pySplitOn left "/").getLastD left
      let sh :=
        if containsSub basename "." then
          String.intercalate "." ((pySplitOn basename ".").dropLast)
        else basename
      (type_name, some sh)
    else (type_name, none)
  else ((pySplitOn uri "/").getLastD uri, none)

/-- One super-type entry of `ReferenceResolver._resolve_package`:
`cls.resolved_supers.append((target_pkg or pkg.name, type_name))`. -/
def resolve_super (R : Resolver) (pname : String) (st : String) : String × String :=
  let ti := extract_type_info_from_uri st
  let target := resolve_type R.stems R.class_index ti.1 ti.2 pname
  (pyOrS target pname, ti.1)

/-- The reference part of `ReferenceResolver._resolve_package`: class
index first, on a falsy result the enum index, then `resolved or pkg.name`. -/
def resolve_ref (R : Resolver) (pname : String) (r : EReference) : EReference :=
  let res := resolve_type R.stems R.class_index r.e_type r.source_hint pname
  if pyTruthy res then { r with resolved_package := res }
  else
    let res2 := resolve_type R.stems R.enum_index r.e_type r.source_hint pname
    { r with resolved_package := some (pyOrS res2 pname) }

/-- The per-class body of `ReferenceResolver._resolve_package`. -/
def resolve_class (R : Resolver) (pname : String) (c : EClass) : EClass :=
  { c with
    resolved_supers := c.resolved_supers ++ c.super_types.map (resolve_super R pname),
    references := c.references.map (resolve_ref R pname) }

-- `ReferenceResolver._resolve_package`: ONE call on one package,
-- recursing into its sub-packages — the per-entry body of `resolve`.
-- `resolve_package_list` applies that call once to each entry of a
-- package list.  It is not the whole pipeline: `convert` hands the
-- resolver the FLATTENED package list, whose sub-package entries alias
-- the parents' subtrees, so `resolve` visits a nested package once per
-- ancestor plus once directly; that aliased pipeline behavior is
-- modelled by `convert_resolve` below.
mutual
def resolve_package (R : Resolver) : EPackage → EPackage
  | .mk pname u x classes enums dts subs sf anns =>
    .mk pname u x (classes.map (resolve_class R pname)) enums dts
        (resolve_package_list R subs) sf anns
def resolve_package_list (R : Resolver) : List EPackage → List EPackage
  | [] => []
  | p :: ps => resolve_package R p :: resolve_package_list R ps
end

/-- Forget every class's `resolved_supers` (used to state that a second
resolution pass changes nothing else). -/
def erase_supers_class (c : EClass) : EClass := { c with resolved_supers := [] }

mutual
def erase_supers_pkg : EPackage → EPackage
  | .mk pname u x classes enums dts subs sf anns =>
    .mk pname u x (classes.map erase_supers_class) enums dts
        (erase_supers_list subs) sf anns
def erase_supers_list : List EPackage → List EPackage
  | [] => []
  | p :: ps => erase_supers_pkg p :: erase_supers_list ps
end

/-- The `resolved_supers` of the first class of the first package
(total accessor for counterexamples). -/
def first_class_supers : List EPackage → List (String × String)
  | (.mk _ _ _ (c :: _) _ _ _ _ _) :: _ => c.resolved_supers
  | _ => []

-- `flatten_packages`: pre-order flattening of the package forest (in
-- the program the flat entries alias the nested sub-package objects).
mutual
def flatten_pkgs : List EPackage → List EPackage
  | [] => []
  | p :: ps => flatten_one p ++ flatten_pkgs ps
def flatten_one : EPackage → List EPackage
  | .mk n u x cs es ds subs sf anns =>
      .mk n u x cs es ds subs sf anns :: flatten_pkgs subs
end

/-- `k` consecutive `_resolve_package` visits to one class: each visit
appends the same pairs to `resolved_supers` and rewrites each
reference's `resolved_package` to the same value. -/
def resolve_class_times (R : Resolver) (pname : String) : Nat → EClass → EClass
  | 0, c => c
  | k + 1, c => resolve_class_times R pname k (resolve_class R pname c)

-- The end state of `resolver.resolve()` as `convert` runs it.  The flat
-- list contains every package of the forest exactly once, and each flat
-- entry's `_resolve_package` call walks that entry's whole subtree, so a
-- package nested at depth d is visited by each of its d ancestors' calls
-- plus its own: d+1 times in the single pass.  A class's mutations are
-- independent of every other class and of the visit order (the indices
-- are fixed during the pass), so the aliased end state of a class
-- visited k times is `resolve_class_times k`.
mutual
def resolve_visits (R : Resolver) (k : Nat) : EPackage → EPackage
  | .mk pname u x cs es ds subs sf anns =>
    .mk pname u x (cs.map (resolve_class_times R pname k)) es ds
        (resolve_visits_list R (k + 1) subs) sf anns
def resolve_visits_list (R : Resolver) (k : Nat) : List EPackage → List EPackage
  | [] => []
  | p :: ps => resolve_visits R k p :: resolve_visits_list R k ps
end

/-- The resolution phase of `convert`: build the indices over the
flattened list (indexing is idempotent, so the repeated subtree visits
leave the same indices as one pre-order walk), then resolve with the
flat list's aliased visit multiplicities — top-level packages once,
depth-d sub-packages d+1 times. -/
def convert_resolve (roots : List EPackage) : List EPackage :=
  resolve_visits_list (buildIndices (flatten_pkgs roots)) 1 roots

/-- The `resolved_supers` of the first class of the first sub-package of
the first package (total accessor for nested counterexamples). -/
def first_sub_class_supers : List EPackage → List (String × String)
  | (.mk _ _ _ _ _ _ ((.mk _ _ _ (c :: _) _ _ _ _ _) :: _) _ _) :: _ => c.resolved_supers
  | _ => []

-- ── Annotation collector (`AnnotationCollector`) ────────────────────────────

/-- `_EXTENSION_FIELD_START`: first custom-extension field number. -/
def EXTENSION_FIELD_START : Nat := 50000

/-- `_shorten_source`: URI → short lowercase token. -/
def shorten_source (source : String) : String :=
  if source = "" then "unknown"
  else
    let cleaned := String.mk (source.toList.reverse.dropWhile (fun c => c = '/')).reverse
    let last := if containsSub cleaned "/" then (pySplitOn cleaned "/").getLastD cleaned else cleaned
    let l2 := (last.toList.map (fun c =>
      if isLowerA c || isUpperA c || isDigitA c || c = '_' then c else '_')).map Char.toLower
    let l3 := String.mk (stripU (collapseU l2))
    if l3 = "" then "unknown" else l3

/-- `_infer_proto_type`: scalar type from the observed value samples. -/
def infer_proto_type (values : List String) : String :=
  if values = [] then "string"
  else if values.all (fun v => pyLowerStr v = "true" || pyLowerStr v = "false") then "bool"
  else if values.all (fun v =>
    match v.toList with
    | '-' :: rest => rest ≠ [] && rest.all isDigitA
    | cs => cs ≠ [] && cs.all isDigitA) then "int32"
  else if values.all (fun v =>
    let body := fun (cs : List Char) =>
      let d1 := cs.takeWhile isDigitA
      match cs.dropWhile isDigitA with
      | [] => d1 ≠ []
      | '.' :: tail => d1 ≠ [] && tail.all isDigitA
      | _ => false
    match v.toList with
    | '-' :: rest => body rest
    | cs => body cs) then "double"
  else "string"

/-- `AnnotationOptionDef`. -/
structure AnnotationOptionDef where
  key : String
  field_name : String
  proto_type : String
  field_number : Nat
  source_short : String
  source_full : String
deriving DecidableEq

/-- The collector's mutable state: the ordered registry, the value
samples and the next field number. -/
structure CollectorState where
  options : List ((String × String) × AnnotationOptionDef) := []
  samples : List ((String × String) × List String) := []
  next : Nat := EXTENSION_FIELD_START
deriving DecidableEq

def initCollector : CollectorState := {}

/-- Lookup in the ordered registry. -/
def findOpt (opts : List ((String × String) × AnnotationOptionDef))
    (lk : String × String) : Option AnnotationOptionDef :=
  (opts.find? (fun e => e.1 = lk)).map (fun e => e.2)

/-- `self._value_samples.get(lookup, set())`. -/
def lookupSamplesD (m : List ((String × String) × List String))
    (lk : String × String) : List String :=
  ((m.find? (fun e => e.1 = lk)).map (fun e => e.2)).getD []

/-- `self._value_samples[lookup].add(value)`. -/
def addSample (m : List ((String × String) × List String))
    (lk : String × String) (v : String) : List ((String × String) × List String) :=
  m.map (fun e => if e.1 = lk then (e.1, dedupAdd e.2 v) else e)

/-- `AnnotationCollector._register_annotation`: register each detail pair,
assigning the next field number on first encounter. -/
def register_ann (st : CollectorState) (ann : EAnn) : CollectorState :=
  ann.details.foldl (fun st kv =>
    let lk := (shorten_source ann.source, kv.1)
    let st2 :=
      if (findOpt st.options lk).isSome then st
      else
        { options := st.options ++ [(lk,
            { key := kv.1, field_name := "", proto_type := "string",
              field_number := st.next, source_short := shorten_source ann.source,
              source_full := ann.source })],
          samples := st.samples ++ [(lk, [])],
          next := st.next + 1 }
    { st2 with samples := addSample st2.samples lk kv.2 }) st

/-- Register a list of annotations in order. -/
def register_anns (st : CollectorState) (anns : List EAnn) : CollectorState :=
  anns.foldl register_ann st

/-- The per-class part of `AnnotationCollector._scan_package`. -/
def scan_class_anns (st : CollectorState) (c : EClass) : CollectorState :=
  let st := register_anns st c.annotations
  let st := c.attributes.foldl (fun st a => register_anns st a.annotations) st
  c.references.foldl (fun st r => register_anns st r.annotations) st

-- `AnnotationCollector._scan_package`: package annotations, classes
-- (class, attribute, reference annotations), enums, then sub-packages.
mutual
def scan_package (st : CollectorState) : EPackage → CollectorState
  | .mk _ _ _ classes enums _ subs _ anns =>
    let st := register_anns st anns
    let st := classes.foldl scan_class_anns st
    let st := enums.foldl (fun st en => register_anns st en.annotations) st
    scan_package_list st subs
def scan_package_list (st : CollectorState) : List EPackage → CollectorState
  | [] => st
  | p :: ps => scan_package_list (scan_package st p) ps
end

/-- The dict `key_to_sources` built at the top of
`AnnotationCollector._finalize`: raw key → set of shortened sources. -/
def key_sources (opts : List ((String × String) × AnnotationOptionDef)) :
    List (String × List String) :=
  opts.foldl (fun m e => dictUpdList m e.1.2 (fun l => dedupAdd l e.1.1)) []

/-- `AnnotationCollector._to_option_field_name`. -/
def to_option_field_name (source_short key : String) : String :=
  let raw := if source_short ≠ "" then source_short ++ "_" ++ key else key
  let s := sub2 (sub1 raw.toList)
  let s := s.map Char.toLower
  let s := s.map (fun c => if isLowerA c || isDigitA c || c = '_' then c else '_')
  String.mk (stripU (collapseU s))

/-- `AnnotationCollector._finalize`: infer types and assign field names,
prefixing a key with its shortened source exactly when the same raw key
occurs under more than one shortened source anywhere in the registry. -/
def finalize (st : CollectorState) : CollectorState :=
  let k2s := key_sources st.options
  { st with options := st.options.map (fun e =>
      (e.1, { e.2 with
        proto_type := infer_proto_type (lookupSamplesD st.samples e.1),
        field_name := to_option_field_name
          (if (lookupListD k2s e.1.2).length > 1 then e.1.1 else "") e.1.2 })) }

/-- `AnnotationCollector.scan_packages`: the scan followed by the single
finalize call. -/
def scan_packages (st : CollectorState) (pkgs : List EPackage) : CollectorState :=
  finalize (scan_package_list st pkgs)

-- ── Proto generator pieces (`ProtoGenerator`) ───────────────────────────────

/-- `ProtoGenerator._camel_to_upper_snake`. -/
def camel_to_upper_snake (name : String) : String :=
  if name = pyUpperStr name then
    String.mk (stripU (name.toList.map (fun c =>
      if isUpperA c || isDigitA c || c = '_' then c else '_')))
  else
    let s := sub2 (sub1 name.toList)
    let s := s.map (fun c =>
      if isLowerA c || isUpperA c || isDigitA c || c = '_' then c else '_')
    String.mk (stripU (s.map Char.toUpper))

/-- `ProtoGenerator._to_enum_value_name`: enum-prefixed UPPER_SNAKE name,
skipping the prefix when the literal's own form already carries it. -/
def to_enum_value_name (enum_name literal_name : String) : String :=
  let pfx := camel_to_upper_snake enum_name
  let value := camel_to_upper_snake literal_name
  if List.isPrefixOf pfx.toList value.toList then value else pfx ++ "_" ++ value

/-- The `(name, value)` literal lines emitted by
`ProtoGenerator._generate_enum` (lines 930-938): the synthesized
`UNSPECIFIED = 0` literal when no source literal is zero-valued, then the
source literals in order. -/
def generate_enum_literals (e : EEnum) : List (String × Int) :=
  let has_zero := e.literals.any (fun lit => lit.value == 0)
  (if has_zero then [] else [(to_enum_value_name e.name "UNSPECIFIED", 0)])
    ++ e.literals.map (fun lit => (to_enum_value_name e.name lit.name, lit.value))

/-- `ProtoGenerator._to_proto_name`. -/
def to_proto_name (name : String) : String :=
  match name.toList with
  | [] => "Unknown"
  | c :: rest => String.mk (Char.toUpper c :: rest)

/-- `ProtoGenerator._to_proto_package` (with the generator's configured
proto package prefix as first argument). -/
def to_proto_package (pfx name : String) : String :=
  let pkg := pyReplace (pyReplace (pyLowerStr name) "-" "_") "." "_"
  if pfx ≠ "" then pfx ++ "." ++ pkg else pkg

/-- The current-package data-type loop of
`ProtoGenerator._resolve_attribute_type`: first data type whose name
matches, has a truthy instance class name and maps to a builtin. -/
def dt_lookup (dts : List EDataType) (tn : String) : Option String :=
  match dts with
  | [] => none
  | dt :: rest =>
    if dt.name = tn ∧ pyTruthy dt.instance_class_name then
      match lookupStr ECORE_TO_PROTO_TYPE (hintVal dt.instance_class_name) with
      | some t => some t
      | none => dt_lookup rest tn
    else dt_lookup rest tn

/-- `ProtoGenerator._resolve_attribute_type`. -/
def resolve_attribute_type (R : Resolver) (pfx : String) (pkg : EPackage)
    (a : EAttribute) : String :=
  match lookupStr ECORE_TO_PROTO_TYPE a.e_type with
  | some t => t
  | none =>
    match dt_lookup pkg.data_types a.e_type with
    | some t => t
    | none =>
      if pkg.enums.any (fun en => en.name = a.e_type) then to_proto_name a.e_type
      else
        let enum_pkg := resolve_type R.stems R.enum_index a.e_type a.source_hint pkg.name
        if pyTruthy enum_pkg then
          let ep := hintVal enum_pkg
          if ep = pkg.name then to_proto_name a.e_type
          else to_proto_package pfx ep ++ "." ++ to_proto_name a.e_type
        else
          match lookupStr R.datatype_index a.e_type with
          | some jt =>
            match lookupStr ECORE_TO_PROTO_TYPE jt with
            | some t => t
            | none => "string"
          | none => "string"

-- ── The per-unit parse loop of `convert` ────────────────────────────────────

/-- The parse loop at the top of `convert`: each input unit is a file
identity together with its parse outcome (`ET.parse` either yields the
unit's packages or raises `ET.ParseError` on malformed XML).  The loop
extends the package list on success and reports and skips the unit on a
parse error. -/
def cp_step (acc : List EPackage × List String)
    (u : String × Except String (List EPackage)) : List EPackage × List String :=
  match u.2 with
  | Except.ok ps => (acc.1 ++ ps, acc.2)
  | Except.error e => (acc.1, acc.2 ++ ["Error parsing " ++ u.1 ++ ": " ++ e])

def convert_parse (units : List (String × Except String (List EPackage))) :
    List EPackage × List String :=
  units.foldl cp_step ([], [])

-- ── Helper lemmas ───────────────────────────────────────────────────────────

theorem cp_acc (units : List (String × Except String (List EPackage)))
    (acc : List EPackage × List String) :
    units.foldl cp_step acc
      = (acc.1 ++ (convert_parse units).1, acc.2 ++ (convert_parse units).2) := by
  induction units generalizing acc with
  | nil => simp [convert_parse]
  | cons u rest ih =>
    rw [List.foldl_cons, ih (cp_step acc u)]
    conv_rhs => rw [convert_parse, List.foldl_cons, ih (cp_step ([], []) u)]
    obtain ⟨ident, r⟩ := u
    cases r <;> simp [cp_step, convert_parse]

-- ── C3 ──────────────────────────────────────────────────────────────────────

/-- C3: parsing fails per input unit.  For any batch with a malformed
unit (a unit whose parse outcome is an error) the failed unit contributes
no packages at all, the units before and after it are processed normally
(the loop is never aborted), and the failed unit is the one reported: the
emitted packages are exactly the concatenation of the successful units'
packages and the diagnostics are exactly the failed units' reports. -/
theorem c3_parse_per_unit :
    (∀ (pre post : List (String × Except String (List EPackage))) (ident msg : String),
       (convert_parse (pre ++ (ident, Except.error msg) :: post)).1
         = (convert_parse pre).1 ++ (convert_parse post).1)
  ∧ (∀ units, (convert_parse units).1
       = (units.filterMap (fun u => u.2.toOption)).flatten)
  ∧ (∀ units, (convert_parse units).2
       = units.filterMap (fun u =>
           match u.2 with
           | Except.error e => some ("Error parsing " ++ u.1 ++ ": " ++ e)
           | Except.ok _ => none)) := by
  have h1 : ∀ units, (convert_parse units).1
      = (units.filterMap (fun u => u.2.toOption)).flatten := by
    intro units
    induction units with
    | nil => simp [convert_parse]
    | cons u rest ih =>
      rw [convert_parse, List.foldl_cons, cp_acc]
      obtain ⟨ident, r⟩ := u
      cases r <;> simp_all [cp_step, Except.toOption]
  have h2 : ∀ units, (convert_parse units).2
      = units.filterMap (fun u =>
          match u.2 with
          | Except.error e => some ("Error parsing " ++ u.1 ++ ": " ++ e)
          | Except.ok _ => none) := by
    intro units
    induction units with
    | nil => simp [convert_parse]
    | cons u rest ih =>
      rw [convert_parse, List.foldl_cons, cp_acc]
      obtain ⟨ident, r⟩ := u
      cases r <;> simp_all [cp_step]
  refine ⟨?_, h1, h2⟩
  intro pre post ident msg
  rw [h1, h1, h1]
  simp [List.filterMap_append, Except.toOption]

-- ── C5 ──────────────────────────────────────────────────────────────────────

/-- Zero-valued entries among rendered enum literal lines. -/
def zero_count (l : List (String × Int)) : Nat := l.countP (fun p => p.2 == 0)

/-- Zero-valued literals of a source enum. -/
def zero_count_src (l : List EEnumLiteral) : Nat := l.countP (fun lit => lit.value == 0)

theorem any_zero_iff (l : List EEnumLiteral) :
    (l.any (fun lit => lit.value == 0)) = false ↔ zero_count_src l = 0 := by
  rw [zero_count_src, List.countP_eq_zero]
  constructor
  · intro h lit hm
    have := List.any_eq_false.mp h lit hm
    simpa using this
  · intro h
    refine List.any_eq_false.mpr (fun lit hm => ?_)
    simpa using h lit hm

/-- C5 (amended): the rendered literal lines are the source literals in
order, preceded by a synthesized `UNSPECIFIED = 0` literal (named by
`to_enum_value_name`) exactly when no source literal has value 0; hence
the rendered output has `max 1 k` zero-valued literals where `k` is the
number of zero-valued source literals — exactly one unless several
source literals already share the value 0. -/
theorem c5_enum_zero_literal (e : EEnum) :
    (generate_enum_literals e
      = (if zero_count_src e.literals = 0
         then [(to_enum_value_name e.name "UNSPECIFIED", (0 : Int))] else [])
        ++ e.literals.map (fun lit => (to_enum_value_name e.name lit.name, lit.value)))
  ∧ zero_count (generate_enum_literals e) = max 1 (zero_count_src e.literals) := by
  have hmap : zero_count (e.literals.map
      (fun lit => (to_enum_value_name e.name lit.name, lit.value)))
      = zero_count_src e.literals := by
    rw [zero_count, List.countP_map, zero_count_src]
    rfl
  have heq : generate_enum_literals e
      = (if zero_count_src e.literals = 0
         then [(to_enum_value_name e.name "UNSPECIFIED", (0 : Int))] else [])
        ++ e.literals.map (fun lit => (to_enum_value_name e.name lit.name, lit.value)) := by
    rw [generate_enum_literals]
    by_cases h : zero_count_src e.literals = 0
    · have hf : (e.literals.any (fun lit => lit.value == 0)) = false :=
        (any_zero_iff e.literals).mpr h
      rw [hf, if_pos h]
      simp
    · have ht : (e.literals.any (fun lit => lit.value == 0)) = true := by
        cases hb : (e.literals.any (fun lit => lit.value == 0)) with
        | false => exact absurd ((any_zero_iff e.literals).mp hb) h
        | true => rfl
      rw [ht, if_neg h]
      simp
  refine ⟨heq, ?_⟩
  rw [heq, zero_count, List.countP_append]
  have h1 : List.countP (fun p => p.2 == 0)
      [(to_enum_value_name e.name "UNSPECIFIED", (0 : Int))] = 1 := by
    simp [List.countP_cons]
  rw [zero_count] at hmap
  by_cases h : zero_count_src e.literals = 0
  · rw [if_pos h, h1, hmap, h]
    decide
  · rw [if_neg h]
    rw [List.countP_nil, hmap]
    omega

/-- C5 counterexample to the claim as stated: an enum whose source
literals contain two zero-valued literals renders two zero-valued
literals, not exactly one; and for an enum named `UN` the synthesized
literal is `UNSPECIFIED`, not `UN_UNSPECIFIED` (the naming rule skips the
prefix when the literal already starts with it). -/
theorem c5_counterexample :
    zero_count (generate_enum_literals
      { name := "Status",
        literals := [{ name := "A", value := 0 }, { name := "B", value := 0 }] }) = 2
  ∧ (2 : Nat) ≠ 1
  ∧ generate_enum_literals { name := "UN", literals := [{ name := "X", value := 1 }] }
      = [("UNSPECIFIED", 0), ("UN_X", 1)]
  ∧ "UNSPECIFIED" ≠ "UN" ++ "_" ++ "UNSPECIFIED" := by
  refine ⟨by rfl, by decide, by rfl, by decide⟩

-- ── C2 ──────────────────────────────────────────────────────────────────────

/-- C2 (amended): with an absent (empty) `xsi:type` the dispatch order is
class-like shape first (structural-feature children, an `eSuperTypes`
attribute or an `abstract` attribute ⇒ class), then literal-like children
⇒ enum, then a native-instance-type attribute ⇒ data type, else class;
with a non-empty but unrecognized `xsi:type` the order is literal-like
children ⇒ enum, then instance-type attribute ⇒ data type, else class.
Classification is a pure function of the element, so the same shape
always yields the same kind. -/
theorem c2_classification_order (e : XElem) :
    (xsiType e = "" →
       classify e = (if looks_like_class e then CKind.cls
                     else if has_literals e then CKind.enm
                     else if looks_like_datatype e then CKind.dt
                     else CKind.cls))
  ∧ (xsiType e ≠ "" →
     containsSub (xsiType e) "EClass" = false →
     containsSub (xsiType e) "EEnum" = false →
     containsSub (xsiType e) "EDataType" = false →
       classify e = (if has_literals e then CKind.enm
                     else if looks_like_datatype e then CKind.dt
                     else CKind.cls)) := by
  constructor
  · intro h
    rw [classify, h]
    have h1 : containsSub "" "EClass" = false := by decide
    have h2 : containsSub "" "EEnum" = false := by decide
    have h3 : containsSub "" "EDataType" = false := by decide
    rw [h1, h2, h3]
    by_cases hc : looks_like_class e
    · simp [hc]
    · have hsf : has_structural_features e = false := by
        rcases Bool.or_eq_false_iff.mp
          (Bool.or_eq_false_iff.mp (Bool.eq_false_iff.mpr hc)).1 with ⟨hx, _⟩
        exact hx
      by_cases hl : has_literals e
      · simp [hc, hl, looks_like_enum]
      · by_cases hd : looks_like_datatype e
        · simp [hc, hl, hd, looks_like_enum]
        · have hn := Bool.or_eq_false_iff.mp (Bool.eq_false_iff.mpr hd)
          have hn1 : elemGet e "instanceClassName" = none :=
            Option.not_isSome_iff_eq_none.mp (by simp [hn.1])
          have hn2 : elemGet e "instanceTypeName" = none :=
            Option.not_isSome_iff_eq_none.mp (by simp [hn.2])
          simp [hc, hl, hd, looks_like_enum, hsf, pyOrO, hn1, hn2, pyTruthy]
  · intro h h1 h2 h3
    rw [classify, h1, h2, h3]
    have hne : (xsiType e == "") = false := by
      simpa using h
    rw [hne]
    by_cases hl : has_literals e
    · simp [hl, looks_like_enum]
    · by_cases hd : looks_like_datatype e
      · simp [hl, hd, looks_like_enum]
      · have hn := Bool.or_eq_false_iff.mp (Bool.eq_false_iff.mpr hd)
        have hn1 : elemGet e "instanceClassName" = none :=
          Option.not_isSome_iff_eq_none.mp (by simp [hn.1])
        have hn2 : elemGet e "instanceTypeName" = none :=
          Option.not_isSome_iff_eq_none.mp (by simp [hn.2])
        by_cases hsf : has_structural_features e
        · simp [hl, hd, looks_like_enum, hsf]
        · simp [hl, hd, looks_like_enum, hsf, pyOrO, hn1, hn2, pyTruthy]

/-- C2 witness: both characterizations applied at concrete elements. -/
theorem c2_classification_order_witness :
    (classify (XElem.mk "eClassifiers" [] [])
       = (if looks_like_class (XElem.mk "eClassifiers" [] []) then CKind.cls
          else if has_literals (XElem.mk "eClassifiers" [] []) then CKind.enm
          else if looks_like_datatype (XElem.mk "eClassifiers" [] []) then CKind.dt
          else CKind.cls))
  ∧ (classify (XElem.mk "eClassifiers" [(xsiTypeKey, "foo:Thing")] [])
       = (if has_literals (XElem.mk "eClassifiers" [(xsiTypeKey, "foo:Thing")] []) then CKind.enm
          else if looks_like_datatype (XElem.mk "eClassifiers" [(xsiTypeKey, "foo:Thing")] []) then CKind.dt
          else CKind.cls)) :=
  ⟨(c2_classification_order (XElem.mk "eClassifiers" [] [])).1 (by rfl),
   (c2_classification_order (XElem.mk "eClassifiers" [(xsiTypeKey, "foo:Thing")] [])).2
     (by decide) (by rfl) (by rfl) (by rfl)⟩

/-- C2 counterexample to the claim as stated: an element with no
`xsi:type` that has both literal-like and structural-feature-like
children is classified as a class (the class-shape test runs first),
not as an enum as rule (1) of the claimed order would demand. -/
theorem c2_counterexample :
    xsiType (XElem.mk "eClassifiers" []
      [XElem.mk "eLiterals" [] [], XElem.mk "eStructuralFeatures" [] []]) = ""
  ∧ has_literals (XElem.mk "eClassifiers" []
      [XElem.mk "eLiterals" [] [], XElem.mk "eStructuralFeatures" [] []]) = true
  ∧ classify (XElem.mk "eClassifiers" []
      [XElem.mk "eLiterals" [] [], XElem.mk "eStructuralFeatures" [] []]) = CKind.cls
  ∧ CKind.cls ≠ CKind.enm :=
  ⟨rfl, rfl, rfl, by decide⟩

-- ── C10 ─────────────────────────────────────────────────────────────────────

/-- C10 (amended): a structural feature whose `eType` token is absent or
empty and which is not explicitly discriminated as a reference (no
`EReference` in its `xsi:type`) gets type name `EString` with no source
hint, is classified as an attribute, and its attribute type renders as
the proto scalar `string`. -/
theorem c10_empty_etype_defaults (e : XElem) (R : Resolver) (pfx : String) (pkg : EPackage)
    (h1 : elemGetD e "eType" "" = "")
    (h2 : containsSub (xsiType e) "EReference" = false) :
    classify_feature e = FeatKind.attr
  ∧ (parse_attribute e).e_type = "EString"
  ∧ (parse_attribute e).source_hint = none
  ∧ resolve_attribute_type R pfx pkg (parse_attribute e) = "string" := by
  have he : (parse_attribute e).e_type = "EString" := by
    simp [parse_attribute, h1, extract_type_info]
  refine ⟨?_, he, ?_, ?_⟩
  · rw [classify_feature, h2]
    by_cases ha : containsSub (xsiType e) "EAttribute"
    · simp [ha]
    · simp [ha, h1]
  · simp [parse_attribute, h1, extract_type_info]
  · rw [resolve_attribute_type, he]
    rfl

/-- C10 witness: a bare feature element with no `eType`. -/
theorem c10_empty_etype_defaults_witness :
    classify_feature (XElem.mk "eStructuralFeatures" [("name", "note")] []) = FeatKind.attr
  ∧ (parse_attribute (XElem.mk "eStructuralFeatures" [("name", "note")] [])).e_type = "EString"
  ∧ (parse_attribute (XElem.mk "eStructuralFeatures" [("name", "note")] [])).source_hint = none
  ∧ resolve_attribute_type {} "" (EPackage.mk "p" "" "" [] [] [] [] "" [])
      (parse_attribute (XElem.mk "eStructuralFeatures" [("name", "note")] [])) = "string" :=
  c10_empty_etype_defaults (XElem.mk "eStructuralFeatures" [("name", "note")] [])
    {} "" (EPackage.mk "p" "" "" [] [] [] [] "" []) (by rfl) (by rfl)

/-- C10 counterexample to the claim as stated: a feature with an
explicit `EReference` discriminator and an absent `eType` token is
parsed as a reference, not as an attribute. -/
theorem c10_counterexample :
    elemGetD (XElem.mk "eStructuralFeatures" [(xsiTypeKey, "ecore:EReference")] []) "eType" "" = ""
  ∧ classify_feature (XElem.mk "eStructuralFeatures" [(xsiTypeKey, "ecore:EReference")] [])
      = FeatKind.ref
  ∧ FeatKind.ref ≠ FeatKind.attr :=
  ⟨rfl, rfl, by decide⟩

-- ── C4 ──────────────────────────────────────────────────────────────────────

/-- Two packages `A` and `B` both defining a class `Shape` (the spec's
disambiguation scenario). -/
def shapePkgA : EPackage := .mk "A" "" "" [{ name := "Shape" }] [] [] [] "A.ecore" []

def shapePkgB : EPackage := .mk "B" "" "" [{ name := "Shape" }] [] [] [] "B.ecore" []

/-- C4 (amended): with multiple candidates `resolve_type` applies, in
order, (1) non-empty source hint mapped through the file-stem index to a
non-empty candidate, (2) non-empty source hint itself a candidate,
(3) current package a candidate, (4) first-seen candidate — the first
applicable rule winning (`resolve_type_priority` is that priority chain
verbatim); and in the A/B `Shape` scenario the reference with source
hint `B` resolves to package `B`, not to the current package `A`. -/
theorem c4_resolve_type_order :
    (∀ (stems : List (String × String)) (index : List (String × List String))
       (tn : String) (hint : Option String) (cur : String),
       resolve_type stems index tn hint cur = resolve_type_priority stems index tn hint cur)
  ∧ resolve_type (buildIndices [shapePkgA, shapePkgB]).stems
      (buildIndices [shapePkgA, shapePkgB]).class_index "Shape" (some "B") "A" = some "B" := by
  refine ⟨?_, by rfl⟩
  intro stems index tn hint cur
  rw [resolve_type, resolve_type_priority]
  cases hc : lookupListD index tn with
  | nil => rfl
  | cons p rest =>
    cases rest with
    | nil => rfl
    | cons q rest2 =>
      cases hint with
      | none => simp [pyTruthy, hintVal]
      | some h =>
        by_cases hh : h = ""
        · simp [pyTruthy, hintVal, hh]
        · simp only [pyTruthy, hintVal, hh, decide_not]
          cases hst : lookupStr stems h with
          | none =>
            simp only [hst]
            split_ifs <;> simp_all
          | some hp =>
            simp only [hst]
            split_ifs <;> simp_all

/-- C4 counterexample to the claim as stated: the file-stem index can map
a hint to the empty package name (a package whose name attribute is
missing); that empty name is in the candidate set, so the claimed rule
(1) would pick it, but the code's truthiness test skips rules 1-2 and
rule (3) returns the current package instead. -/
def c4pkg1 : EPackage := .mk "" "" "" [{ name := "Shape" }] [] [] [] "b.ecore" []

def c4pkg2 : EPackage := .mk "a" "" "" [{ name := "Shape" }] [] [] [] "" []

def c4R : Resolver := buildIndices [c4pkg1, c4pkg2]

theorem c4_counterexample :
    lookupStr c4R.stems "b" = some ""
  ∧ lookupListD c4R.class_index "Shape" = ["", "a"]
  ∧ resolve_type c4R.stems c4R.class_index "Shape" (some "b") "a" = some "a"
  ∧ (some "a" : Option String) ≠ some "" :=
  ⟨rfl, rfl, rfl, by decide⟩

-- ── C6 ──────────────────────────────────────────────────────────────────────

/-- One `_resolve_package` visit appends exactly one `(owner, name)`
pair per raw super-type token, in raw-list order — for a freshly parsed
class (`resolved_supers = []`) a single visit leaves exactly N entries —
and a token whose resolution fails still contributes a pair, with the
current package as the fallback owner.  This is the per-visit behavior;
the pipeline applies `d + 1` such visits to a package nested at depth
`d` (see `c6_subpackage_super_duplication`). -/
theorem single_visit_supers_exact (R : Resolver) (pname : String) (c : EClass) :
    (resolve_class R pname c).resolved_supers
      = c.resolved_supers ++ c.super_types.map (resolve_super R pname)
  ∧ (c.resolved_supers = [] →
      (resolve_class R pname c).resolved_supers.length = c.super_types.length)
  ∧ (∀ st : String,
      resolve_type R.stems R.class_index (extract_type_info_from_uri st).1
        (extract_type_info_from_uri st).2 pname = none →
      resolve_super R pname st = (pname, (extract_type_info_from_uri st).1)) := by
  refine ⟨rfl, ?_, ?_⟩
  · intro h
    simp [resolve_class, h]
  · intro st h
    rw [resolve_super]
    simp only [h, pyOrS]

/-- The single-visit lemma at a concrete class with two raw super
tokens and an empty resolver. -/
theorem single_visit_supers_exact_inst :
    (resolve_class {} "p" { name := "C", super_types := ["#//S", "#//T"] }).resolved_supers.length
      = ({ name := "C", super_types := ["#//S", "#//T"] } : EClass).super_types.length
  ∧ resolve_super {} "p" "#//S" = ("p", "S") :=
  ⟨(single_visit_supers_exact {} "p" { name := "C", super_types := ["#//S", "#//T"] }).2.1 rfl,
   (single_visit_supers_exact {} "p" { name := "C", super_types := ["#//S", "#//T"] }).2.2
     "#//S" (by rfl)⟩

theorem resolve_class_times_comm (R : Resolver) (pname : String) :
    ∀ (k : Nat) (c : EClass),
    resolve_class_times R pname k (resolve_class R pname c)
      = resolve_class R pname (resolve_class_times R pname k c)
  | 0, _ => rfl
  | k + 1, c => resolve_class_times_comm R pname k (resolve_class R pname c)

-- The visit-counted model composes single `_resolve_package` visits:
-- one more visit of every package in a forest is exactly one more
-- `resolve_package` application on top of the previous visits.
mutual
theorem resolve_visits_succ (R : Resolver) : ∀ (p : EPackage) (k : Nat),
    resolve_visits R (k + 1) p = resolve_package R (resolve_visits R k p)
  | .mk pname u x cs es ds subs sf anns, k => by
    simp only [resolve_visits, resolve_package, EPackage.mk.injEq, List.map_map,
               true_and, and_true]
    constructor
    · refine List.map_congr_left ?_
      intro c _
      exact resolve_class_times_comm R pname k c
    · exact resolve_visits_list_succ R subs (k + 1)
theorem resolve_visits_list_succ (R : Resolver) : ∀ (ps : List EPackage) (k : Nat),
    resolve_visits_list R (k + 1) ps = resolve_package_list R (resolve_visits_list R k ps)
  | [], _ => rfl
  | p :: ps, k => by
    simp only [resolve_visits_list, resolve_package_list]
    rw [resolve_visits_succ R p k, resolve_visits_list_succ R ps k]
end

/-- A root package with one sub-package `child` holding a class `C`
with one raw super token and its superclass `S`. -/
def c6bugP : List EPackage :=
  [.mk "root" "" "" [] [] []
     [.mk "child" "" ""
        [{ name := "C", super_types := ["#//S"] }, { name := "S" }] [] [] [] "m.ecore" []]
     "m.ecore" []]

/-- C6: a class with N raw super-type tokens must end one resolution
pass with exactly N order-preserved `resolved_supers` entries — the
behavior of a single `_resolve_package` visit, and the invariant the
rest of the program relies on.  The pipeline breaks it for sub-package
classes: `convert` resolves the flattened list, whose sub-package
entries alias the parents' subtrees, so the depth-1 class `C` with one
raw super token ends the single pass with the pair `("child", "S")`
appended twice — 2·N entries ((depth+1)·N in general) instead of N. -/
theorem c6_subpackage_super_duplication :
    first_sub_class_supers (convert_resolve c6bugP) = [("child", "S"), ("child", "S")]
  ∧ (first_sub_class_supers (convert_resolve c6bugP)).length = 2
  ∧ ({ name := "C", super_types := ["#//S"] } : EClass).super_types.length = 1
  ∧ (resolve_class (buildIndices (flatten_pkgs c6bugP)) "child"
       { name := "C", super_types := ["#//S"] }).resolved_supers = [("child", "S")]
  ∧ (2 : Nat) ≠ 1 :=
  ⟨by rfl, by rfl, by rfl, by rfl, by decide⟩

-- ── C9 ──────────────────────────────────────────────────────────────────────

/-- C9 (amended): a reference's resolution uses the class-index result
when it is truthy (found and non-empty); on a none-or-empty class-index
result it retries the enum index; when that is also none-or-empty it
falls back to the current package name; and the resolved package is
never left `none` after the pass. -/
theorem c9_reference_fallback (R : Resolver) (pname : String) (r : EReference) :
    ((resolve_ref R pname r).resolved_package).isSome = true
  ∧ (∀ s : String, s ≠ "" →
       resolve_type R.stems R.class_index r.e_type r.source_hint pname = some s →
       (resolve_ref R pname r).resolved_package = some s)
  ∧ (pyTruthy (resolve_type R.stems R.class_index r.e_type r.source_hint pname) = false →
       (∀ s : String, s ≠ "" →
          resolve_type R.stems R.enum_index r.e_type r.source_hint pname = some s →
          (resolve_ref R pname r).resolved_package = some s)
     ∧ (pyTruthy (resolve_type R.stems R.enum_index r.e_type r.source_hint pname) = false →
          (resolve_ref R pname r).resolved_package = some pname)) := by
  refine ⟨?_, ?_, ?_⟩
  · rw [resolve_ref]
    cases hres : resolve_type R.stems R.class_index r.e_type r.source_hint pname with
    | none => simp [pyTruthy]
    | some s => by_cases hs : s = "" <;> simp [pyTruthy, hs]
  · intro s hs hres
    rw [resolve_ref, hres]
    simp [pyTruthy, hs]
  · intro hfalse
    constructor
    · intro s hs hres
      rw [resolve_ref, hfalse, hres]
      simp [pyOrS, hs]
    · intro hfalse2
      rw [resolve_ref, hfalse]
      cases hres2 : resolve_type R.stems R.enum_index r.e_type r.source_hint pname with
      | none => simp [pyOrS]
      | some s =>
        rw [hres2] at hfalse2
        have hs : s = "" := by simpa [pyTruthy] using hfalse2
        simp [pyOrS, hs]

/-- C9 witness: a reference found in the class index, and one found
nowhere (falling back to the current package). -/
def c9wR : Resolver := buildIndices [.mk "q" "" "" [{ name := "T" }] [] [] [] "" []]

theorem c9_reference_fallback_witness :
    (resolve_ref c9wR "p" { name := "x", e_type := "T" }).resolved_package = some "q"
  ∧ (resolve_ref {} "p" { name := "x", e_type := "T" }).resolved_package = some "p" :=
  ⟨(c9_reference_fallback c9wR "p" { name := "x", e_type := "T" }).2.1 "q" (by decide) (by rfl),
   ((c9_reference_fallback {} "p" { name := "x", e_type := "T" }).2.2 (by rfl)).2 (by rfl)⟩

/-- C9 counterexample to the claim as stated: the class index does find
the target (in a package whose name attribute was missing, yielding the
empty name), yet the code treats the empty result as a failure and takes
the enum-index answer — the claim's "class index first, enum index only
on failure" does not hold for this input. -/
def c9pkg1 : EPackage := .mk "" "" "" [{ name := "T" }] [] [] [] "b.ecore" []

def c9pkg3 : EPackage := .mk "q" "" "" [] [{ name := "T" }] [] [] "" []

def c9R : Resolver := buildIndices [c9pkg1, c9pkg3]

theorem c9_counterexample :
    resolve_type c9R.stems c9R.class_index "T" none "p" = some ""
  ∧ (resolve_ref c9R "p" { name := "x", e_type := "T" }).resolved_package = some "q"
  ∧ (some "q" : Option String) ≠ some "" :=
  ⟨rfl, rfl, by decide⟩

-- ── C1 ──────────────────────────────────────────────────────────────────────

@[simp] theorem resolve_class_name (R : Resolver) (pname : String) (c : EClass) :
    (resolve_class R pname c).name = c.name := rfl

theorem resolve_ref_idem (R : Resolver) (pname : String) (r : EReference) :
    resolve_ref R pname (resolve_ref R pname r) = resolve_ref R pname r := by
  cases hres : resolve_type R.stems R.class_index r.e_type r.source_hint pname with
  | none => simp [resolve_ref, hres, pyTruthy]
  | some s => by_cases hs : s = "" <;> simp [resolve_ref, hres, pyTruthy, hs]

theorem erase_resolve_class_twice (R : Resolver) (pname : String) (c : EClass) :
    erase_supers_class (resolve_class R pname (resolve_class R pname c))
      = erase_supers_class (resolve_class R pname c) := by
  have hrefs : (c.references.map (resolve_ref R pname)).map (resolve_ref R pname)
      = c.references.map (resolve_ref R pname) := by
    rw [List.map_map]
    exact List.map_congr_left (fun r _ => resolve_ref_idem R pname r)
  simp [erase_supers_class, resolve_class, hrefs]

mutual
theorem erase_resolve_pkg_twice (R : Resolver) : ∀ (p : EPackage),
    erase_supers_pkg (resolve_package R (resolve_package R p))
      = erase_supers_pkg (resolve_package R p)
  | .mk pname u x cs es ds subs sf anns => by
    simp only [resolve_package, erase_supers_pkg, EPackage.mk.injEq, List.map_map,
               true_and, and_true]
    constructor
    · refine List.map_congr_left ?_
      intro c _
      exact erase_resolve_class_twice R pname c
    · exact erase_resolve_list_twice R subs
theorem erase_resolve_list_twice (R : Resolver) : ∀ (ps : List EPackage),
    erase_supers_list (resolve_package_list R (resolve_package_list R ps))
      = erase_supers_list (resolve_package_list R ps)
  | [] => rfl
  | p :: ps => by
    simp only [resolve_package_list, erase_supers_list]
    rw [erase_resolve_pkg_twice R p, erase_resolve_list_twice R ps]
end

mutual
theorem index_resolve_pkg (R0 R : Resolver) : ∀ (p : EPackage),
    index_package R0 (resolve_package R p) = index_package R0 p
  | .mk pname u x cs es ds subs sf anns => by
    simp only [resolve_package, index_package, List.foldl_map, resolve_class_name]
    exact index_resolve_list _ R subs
theorem index_resolve_list (R0 R : Resolver) : ∀ (ps : List EPackage),
    index_package_list R0 (resolve_package_list R ps) = index_package_list R0 ps
  | [] => rfl
  | p :: ps => by
    simp only [resolve_package_list, index_package_list]
    rw [index_resolve_pkg R0 R p]
    exact index_resolve_list _ R ps
end

/-- C1 (amended): a second resolution pass over already-resolved packages
leaves everything except `resolved_supers` identical — in particular
every reference's `resolved_package` keeps its value, and the indices
rebuilt from the resolved packages equal the original ones — but it is
not idempotent on `resolved_supers`: each class gets the same N pairs
appended a second time, so a class resolved from a fresh parse state ends
with its first-pass list doubled. -/
theorem c1_resolve_second_pass :
    (∀ (R : Resolver) (pkgs : List EPackage),
       erase_supers_list (resolve_package_list R (resolve_package_list R pkgs))
         = erase_supers_list (resolve_package_list R pkgs))
  ∧ (∀ (R : Resolver) (pkgs : List EPackage),
       buildIndices (resolve_package_list R pkgs) = buildIndices pkgs)
  ∧ (∀ (R : Resolver) (pname : String) (c : EClass),
       (resolve_class R pname (resolve_class R pname c)).resolved_supers
         = (resolve_class R pname c).resolved_supers
           ++ c.super_types.map (resolve_super R pname))
  ∧ (∀ (R : Resolver) (pname : String) (c : EClass), c.resolved_supers = [] →
       (resolve_class R pname (resolve_class R pname c)).resolved_supers
         = (resolve_class R pname c).resolved_supers
           ++ (resolve_class R pname c).resolved_supers) := by
  refine ⟨fun R pkgs => erase_resolve_list_twice R pkgs,
          fun R pkgs => index_resolve_list {} R pkgs,
          fun R pname c => by simp [resolve_class],
          fun R pname c h => by simp [resolve_class, h]⟩

/-- C1 witness for the doubling conjunct (fresh class, one super token). -/
theorem c1_resolve_second_pass_witness :
    (resolve_class {} "p" (resolve_class {} "p"
      { name := "C", super_types := ["#//S"] })).resolved_supers
      = (resolve_class {} "p" { name := "C", super_types := ["#//S"] }).resolved_supers
        ++ (resolve_class {} "p" { name := "C", super_types := ["#//S"] }).resolved_supers :=
  c1_resolve_second_pass.2.2.2 {} "p" { name := "C", super_types := ["#//S"] } rfl

/-- C1 counterexample to the claim as stated: resolving a second time
does not leave `resolved_supers` identical — for a one-super class the
list doubles from one pair to two. -/
def c1P : List EPackage :=
  [.mk "p" "" "" [{ name := "C", super_types := ["#//S"] }, { name := "S" }] [] [] [] "" []]

def c1R : Resolver := buildIndices c1P

theorem c1_counterexample :
    first_class_supers (resolve_package_list c1R c1P) = [("p", "S")]
  ∧ first_class_supers (resolve_package_list c1R (resolve_package_list c1R c1P))
      = [("p", "S"), ("p", "S")]
  ∧ ([("p", "S")] : List (String × String)) ≠ [("p", "S"), ("p", "S")] :=
  ⟨rfl, rfl, by decide⟩

-- ── C7 ──────────────────────────────────────────────────────────────────────

/-- The shortened sources a raw key was registered under, read directly
off the registry (first-occurrence order). -/
def rawSources (opts : List ((String × String) × AnnotationOptionDef)) (key : String) :
    List String :=
  opts.filterMap (fun e => if e.1.2 = key then some e.1.1 else none)

theorem lookupListD_dictUpdList_self (m : List (String × List String)) (k : String)
    (f : List String → List String) :
    lookupListD (dictUpdList m k f) k = f (lookupListD m k) := by
  induction m with
  | nil => simp [dictUpdList, lookupListD, lookupList]
  | cons p rest ih =>
    by_cases h : p.1 = k
    · simp [dictUpdList, h, lookupListD, lookupList]
    · simp only [dictUpdList, h, reduceIte]
      simp only [lookupListD, lookupList, h, reduceIte]
      simpa [lookupListD] using ih

theorem lookupListD_dictUpdList_ne (m : List (String × List String)) (k k2 : String)
    (f : List String → List String) (h : k2 ≠ k) :
    lookupListD (dictUpdList m k f) k2 = lookupListD m k2 := by
  have h2 : k ≠ k2 := Ne.symm h
  induction m with
  | nil => simp [dictUpdList, lookupListD, lookupList, h2]
  | cons p rest ih =>
    by_cases hp : p.1 = k
    · subst hp
      simp [dictUpdList, lookupListD, lookupList, h2]
    · simp only [dictUpdList, hp, reduceIte]
      by_cases hp2 : p.1 = k2
      · simp [lookupListD, lookupList, hp2]
      · simp only [lookupListD, lookupList, hp2, reduceIte]
        simpa [lookupListD] using ih

theorem key_sources_fold (opts : List ((String × String) × AnnotationOptionDef)) :
    ∀ (m : List (String × List String)) (key : String),
    lookupListD (opts.foldl (fun m e => dictUpdList m e.1.2 (fun l => dedupAdd l e.1.1)) m) key
      = (rawSources opts key).foldl dedupAdd (lookupListD m key) := by
  induction opts with
  | nil => intro m key; simp [rawSources]
  | cons e rest ih =>
    intro m key
    rw [List.foldl_cons, ih]
    simp only [rawSources, List.filterMap_cons]
    by_cases h : e.1.2 = key
    · rw [if_pos h, h, lookupListD_dictUpdList_self, List.foldl_cons]
    · rw [if_neg h, lookupListD_dictUpdList_ne _ _ _ _ (Ne.symm h)]

/-- The `key_to_sources` dict of `_finalize` holds, for each key, exactly
the distinct shortened sources that key was registered under. -/
theorem key_sources_eq (opts : List ((String × String) × AnnotationOptionDef)) (key : String) :
    lookupListD (key_sources opts) key = dedupFold (rawSources opts key) := by
  rw [key_sources, key_sources_fold]
  simp [dedupFold, lookupListD, lookupList]

/-- C7: collision-driven prefixing is global.  For any entry of the
finalized registry whose raw key occurs under at least two distinct
shortened sources anywhere in the registry, the finalized field name is
built from the entry's own shortened source and the key; for a key that
occurs under exactly one shortened source it is the bare key converted
to snake case, never prefixed. -/
theorem c7_prefix_on_collision (st : CollectorState) (src key : String)
    (opt : AnnotationOptionDef)
    (hmem : ((src, key), opt) ∈ (finalize st).options) :
    ((dedupFold (rawSources st.options key)).length ≥ 2 →
       opt.field_name = to_option_field_name src key)
  ∧ ((dedupFold (rawSources st.options key)).length = 1 →
       opt.field_name = to_option_field_name "" key) := by
  rw [finalize] at hmem
  simp only [List.mem_map] at hmem
  obtain ⟨e0, he0, heq⟩ := hmem
  have h1 : e0.1 = (src, key) := congrArg Prod.fst heq
  have h2 : opt = { e0.2 with
      proto_type := infer_proto_type (lookupSamplesD st.samples e0.1),
      field_name := to_option_field_name
        (if (lookupListD (key_sources st.options) e0.1.2).length > 1 then e0.1.1 else "")
        e0.1.2 } := (congrArg Prod.snd heq).symm
  have ha : e0.1.1 = src := by rw [h1]
  have hb : e0.1.2 = key := by rw [h1]
  rw [ha, hb] at h2
  constructor
  · intro hge
    rw [h2]
    have hgt : (lookupListD (key_sources st.options) key).length > 1 := by
      rw [key_sources_eq]; omega
    simp [hgt]
  · intro heq1
    rw [h2]
    have hngt : ¬ (lookupListD (key_sources st.options) key).length > 1 := by
      rw [key_sources_eq]; omega
    simp [hngt]

/-- C7 witness: a registry where `documentation` appears under two
sources (`ui` and `gen`) and `label` under one. -/
def c7st : CollectorState :=
  register_ann (register_ann initCollector
    { source := "http://a/ui", details := [("documentation", "x")] })
    { source := "http://b/gen", details := [("documentation", "y"), ("label", "z")] }

theorem c7_prefix_on_collision_witness :
    ({ key := "documentation", field_name := "ui_documentation", proto_type := "string",
       field_number := 50000, source_short := "ui",
       source_full := "http://a/ui" } : AnnotationOptionDef).field_name
      = to_option_field_name "ui" "documentation"
  ∧ ({ key := "label", field_name := "label", proto_type := "string",
       field_number := 50002, source_short := "gen",
       source_full := "http://b/gen" } : AnnotationOptionDef).field_name
      = to_option_field_name "" "label" :=
  ⟨(c7_prefix_on_collision c7st "ui" "documentation" _ (by decide)).1 (by decide),
   (c7_prefix_on_collision c7st "gen" "label" _ (by decide)).2 (by decide)⟩

-- ── C8 ──────────────────────────────────────────────────────────────────────

/-- The collector invariant: the next field number always sits exactly
`options.length` above the base, and the registered field numbers are the
consecutive run from the base, in registry (= first-encounter) order. -/
def collectorInv (st : CollectorState) : Prop :=
  st.next = EXTENSION_FIELD_START + st.options.length
  ∧ st.options.map (fun e => e.2.field_number)
      = List.range' EXTENSION_FIELD_START st.options.length

theorem collectorInv_init : collectorInv initCollector := by
  constructor <;> rfl

theorem range'_concat_one (s n : Nat) :
    List.range' s (n + 1) = List.range' s n ++ [s + n] := by
  induction n generalizing s with
  | zero => simp [List.range']
  | succ n ih =>
    rw [List.range'_succ]
    conv_rhs => rw [List.range'_succ]
    rw [ih (s + 1)]
    have hsn : s + 1 + n = s + (n + 1) := by omega
    rw [List.cons_append, hsn]

theorem register_ann_pres (st : CollectorState) (ann : EAnn)
    (h : collectorInv st) : collectorInv (register_ann st ann) := by
  rw [register_ann]
  induction ann.details generalizing st with
  | nil => exact h
  | cons kv rest ih =>
    rw [List.foldl_cons]
    apply ih
    by_cases hf : (findOpt st.options (shorten_source ann.source, kv.1)).isSome
    · simpa [hf] using h
    · obtain ⟨h1, h2⟩ := h
      simp only [hf, Bool.false_eq_true, reduceIte]
      constructor
      · simp only [List.length_append, List.length_cons, List.length_nil, h1]
        omega
      · simp only [List.map_append, h2, List.map_cons, List.map_nil, h1,
                   List.length_append, List.length_cons, List.length_nil]
        simpa using (range'_concat_one EXTENSION_FIELD_START st.options.length).symm

theorem foldl_pres {α : Type} {f : CollectorState → α → CollectorState}
    (hf : ∀ st a, collectorInv st → collectorInv (f st a)) :
    ∀ (l : List α) (st : CollectorState), collectorInv st → collectorInv (l.foldl f st)
  | [], _, h => h
  | a :: l, st, h => foldl_pres hf l (f st a) (hf st a h)

theorem register_anns_pres (st : CollectorState) (anns : List EAnn)
    (h : collectorInv st) : collectorInv (register_anns st anns) :=
  foldl_pres register_ann_pres anns st h

theorem scan_class_anns_pres (st : CollectorState) (c : EClass)
    (h : collectorInv st) : collectorInv (scan_class_anns st c) := by
  rw [scan_class_anns]
  refine foldl_pres (fun st r h => register_anns_pres _ _ h) _ _ ?_
  refine foldl_pres (fun st a h => register_anns_pres _ _ h) _ _ ?_
  exact register_anns_pres _ _ h

mutual
theorem scan_package_pres : ∀ (p : EPackage) (st : CollectorState),
    collectorInv st → collectorInv (scan_package st p)
  | .mk _ _ _ cs es _ subs _ anns, st, h => by
    rw [scan_package]
    refine scan_package_list_pres subs _ ?_
    refine foldl_pres (fun st en h => register_anns_pres _ _ h) _ _ ?_
    refine foldl_pres scan_class_anns_pres _ _ ?_
    exact register_anns_pres _ _ h
theorem scan_package_list_pres : ∀ (ps : List EPackage) (st : CollectorState),
    collectorInv st → collectorInv (scan_package_list st ps)
  | [], _, h => h
  | p :: ps, st, h => scan_package_list_pres ps _ (scan_package_pres p st h)
end

/-- C8: extension field numbers are assigned during the collection scan,
in first-encounter order over the depth-first package walk: after any
scan from the fresh collector the registered numbers are exactly the
consecutive run `EXTENSION_FIELD_START, +1, ...` in registry order (hence
strictly increasing from the base constant 50000), and the finalize step
never changes any assigned number (for any state whatsoever). -/
theorem c8_field_numbers :
    (∀ pkgs : List EPackage,
       (scan_package_list initCollector pkgs).options.map (fun e => e.2.field_number)
         = List.range' EXTENSION_FIELD_START
             (scan_package_list initCollector pkgs).options.length)
  ∧ (∀ st : CollectorState,
       (finalize st).options.map (fun e => e.2.field_number)
         = st.options.map (fun e => e.2.field_number))
  ∧ (∀ pkgs : List EPackage,
       (scan_packages initCollector pkgs).options.map (fun e => e.2.field_number)
         = List.range' EXTENSION_FIELD_START
             (scan_packages initCollector pkgs).options.length) := by
  have hfin : ∀ st : CollectorState,
      (finalize st).options.map (fun e => e.2.field_number)
        = st.options.map (fun e => e.2.field_number) := by
    intro st
    rw [finalize]
    simp [List.map_map]
  have hscan : ∀ pkgs : List EPackage,
      (scan_package_list initCollector pkgs).options.map (fun e => e.2.field_number)
        = List.range' EXTENSION_FIELD_START
            (scan_package_list initCollector pkgs).options.length :=
    fun pkgs => (scan_package_list_pres pkgs initCollector collectorInv_init).2
  refine ⟨hscan, hfin, fun pkgs => ?_⟩
  rw [scan_packages, hfin]
  have hlen : (finalize (scan_package_list initCollector pkgs)).options.length
      = (scan_package_list initCollector pkgs).options.length := by
    rw [finalize]
    simp
  rw [hlen]
  exact hscan pkgs
